import Mathlib

/-!
Verification of the follow-up action workflow subsystem and analytics
aggregation of the complaint-tracking backend.

The definitions below are a shallow embedding of the Python source:
`app/api/follow_up_actions.py` (action lifecycle, audit trail, dependency
validation, reordering) and `app/api/analytics.py` (top-N aggregations),
over the relational data model of `app/models/models.py`.

Modelling conventions:
- the relational store is a record of lists of rows (`DB`);
- a mutating endpoint is a pure function `DB → Except ApiError (DB × result)`;
  an `Except.error` outcome models an HTTP error response, in which case the
  transaction is not committed and the stored state is unchanged;
- timestamps (`datetime.now()`) are an explicit `now : Int` parameter;
  calendar dates are modelled as integer day numbers;
- SQLAlchemy autoincrement primary keys are modelled as max existing id + 1;
- Python `str()` of a column value is modelled by the canonical string of the
  value (for status/priority enums, their value string).
-/

namespace ComplaintSystem

/-- Status of a follow-up action.  The six schema values
(`open, pending, in_progress, blocked, escalated, closed`) plus the raw
string `cancelled` that `delete_action` writes into the status column. -/
inductive ActionStatus where
  | open_
  | pending
  | in_progress
  | blocked
  | escalated
  | closed
  | cancelled
deriving DecidableEq, Repr

/-- The string stored in the `status` column for each status value. -/
def statusStr : ActionStatus → String
  | .open_ => "open"
  | .pending => "pending"
  | .in_progress => "in_progress"
  | .blocked => "blocked"
  | .escalated => "escalated"
  | .closed => "closed"
  | .cancelled => "cancelled"

/-- Priority of a follow-up action (`low, medium, high, critical`). -/
inductive ActionPriority where
  | low
  | medium
  | high
  | critical
deriving DecidableEq, Repr

/-- The string stored in the `priority` column for each priority value. -/
def priorityStr : ActionPriority → String
  | .low => "low"
  | .medium => "medium"
  | .high => "high"
  | .critical => "critical"

/-- Row of `follow_up_actions` (model `FollowUpAction`). -/
structure FollowUpAction where
  id : Nat
  complaintId : Nat
  actionNumber : Nat
  actionText : String
  responsiblePerson : String
  dueDate : Option Int
  status : ActionStatus
  priority : ActionPriority
  notes : Option String
  completionPercentage : Nat
  startedAt : Option Int
  completedAt : Option Int
deriving DecidableEq, Repr

/-- Row of `action_history` (model `ActionHistory`). -/
structure ActionHistory where
  actionId : Nat
  fieldChanged : String
  oldValue : Option String
  newValue : Option String
  changedBy : String
  changeReason : Option String
deriving DecidableEq, Repr

/-- Row of `responsible_persons` (model `ResponsiblePerson`). -/
structure ResponsiblePerson where
  name : String
  email : Option String
  department : Option String
  isActive : Bool
deriving DecidableEq, Repr

/-- Row of `action_dependencies` (model `ActionDependency`): directed edge
`action_id → depends_on_action_id`. -/
structure ActionDependency where
  actionId : Nat
  dependsOnActionId : Nat
  dependencyType : String
deriving DecidableEq, Repr

/-- Row of `complaints` (model `Complaint`), restricted to the columns the
verified operations read. -/
structure Complaint where
  id : Nat
  companyId : Option Nat
  partId : Option Nat
  dateReceived : Int
  isDeleted : Bool
deriving DecidableEq, Repr

/-- Row of `companies` (model `Company`). -/
structure Company where
  id : Nat
  name : String
deriving DecidableEq, Repr

/-- Row of `parts` (model `Part`). -/
structure Part where
  id : Nat
  partNumber : String
deriving DecidableEq, Repr

/-- The relational store. -/
structure DB where
  complaints : List Complaint
  companies : List Company
  parts : List Part
  actions : List FollowUpAction
  history : List ActionHistory
  persons : List ResponsiblePerson
  dependencies : List ActionDependency
deriving DecidableEq, Repr

/-- The distinct `HTTPException`s raised by the verified endpoints:
`notFound` = 404; the others are 400 with the detail message identifying the
failure kind (action cap, responsible person missing or inactive, start from
a non-open status, unsatisfied dependencies, direct circular dependency,
reorder position beyond the action count).  `validationError` models the
framework-level rejection of a reorder position outside the declared
query bounds 1..10. -/
inductive ApiError where
  | notFound
  | limitExceeded
  | invalidReference
  | invalidTransition
  | dependencyUnsatisfied
  | circularDependency
  | invalidPosition
  | validationError
deriving DecidableEq, Repr

/-- `db.query(Complaint).filter(Complaint.id == complaint_id).first()` —
note: no `is_deleted` filter in `create_action`. -/
def findComplaint (db : DB) (complaintId : Nat) : Option Complaint :=
  db.complaints.find? (fun c => c.id == complaintId)

/-- `db.query(FollowUpAction).filter(and_(id == action_id, complaint_id ==
complaint_id)).first()`. -/
def findAction (db : DB) (complaintId actionId : Nat) : Option FollowUpAction :=
  db.actions.find? (fun a => a.id == actionId && a.complaintId == complaintId)

/-- All stored actions of a complaint (any status, `cancelled` included). -/
def complaintActions (db : DB) (complaintId : Nat) : List FollowUpAction :=
  db.actions.filter (fun a => a.complaintId == complaintId)

/-- `db.query(FollowUpAction).filter(complaint_id == complaint_id).count()`. -/
def actionCount (db : DB) (complaintId : Nat) : Nat :=
  (complaintActions db complaintId).length

/-- `db.query(ResponsiblePerson).filter(and_(name == X, is_active ==
True)).first()`. -/
def findActivePerson (db : DB) (name : String) : Option ResponsiblePerson :=
  db.persons.find? (fun p => p.name == name && p.isActive)

/-- Helper `create_action_history`: append one audit row and commit. -/
def create_action_history (db : DB) (actionId : Nat) (field : String)
    (oldVal newVal : Option String) (changedBy : String) (reason : Option String) : DB :=
  { db with history := db.history ++
      [{ actionId := actionId, fieldChanged := field, oldValue := oldVal,
         newValue := newVal, changedBy := changedBy, changeReason := reason }] }

/-- Helper `handle_status_transition`: automatic timestamps on status
changes.  Into `in_progress` with `started_at` unset: stamp `started_at`.
Else into `closed` with `completed_at` unset: stamp `completed_at` and force
`completion_percentage = 100`.  Otherwise do nothing. -/
def handle_status_transition (a : FollowUpAction) (newStatus : ActionStatus)
    (now : Int) : FollowUpAction :=
  if newStatus = .in_progress ∧ a.startedAt = none then
    { a with startedAt := some now }
  else if newStatus = .closed ∧ a.completedAt = none then
    { a with completedAt := some now, completionPercentage := 100 }
  else a

/-- Helper `get_next_action_number`: `(max(action_number) or 0) + 1` over the
actions of the complaint. -/
def get_next_action_number (db : DB) (complaintId : Nat) : Nat :=
  ((complaintActions db complaintId).map (fun a => a.actionNumber)).foldr max 0 + 1

/-- Autoincrement primary key for a new `follow_up_actions` row. -/
def nextActionId (db : DB) : Nat :=
  (db.actions.map (fun a => a.id)).foldr max 0 + 1

/-- Helper `validate_action_dependencies`: every dependency edge originating
at the action whose target row exists must point at a `closed` action; a
dangling edge (target row absent) is skipped, as in the source. -/
def validate_action_dependencies (db : DB) (actionId : Nat) : Bool :=
  (db.dependencies.filter (fun d => d.actionId == actionId)).all (fun dep =>
    match db.actions.find? (fun x => x.id == dep.dependsOnActionId) with
    | some target => target.status == ActionStatus.closed
    | none => true)

/-- Request body `FollowUpActionCreate`. -/
structure FollowUpActionCreate where
  actionText : String
  responsiblePerson : String
  dueDate : Option Int
  priority : ActionPriority
  notes : Option String
deriving DecidableEq, Repr

/-- Endpoint `POST /` (`create_action`): complaint lookup (by id only — the
soft-delete flag is not consulted), 10-action cap over all stored actions of
the complaint, active responsible person check, then insert with
`action_number = get_next_action_number` and one `created` audit row. -/
def create_action (db : DB) (complaintId : Nat) (payload : FollowUpActionCreate)
    (changedBy : String) : Except ApiError (DB × FollowUpAction) :=
  match findComplaint db complaintId with
  | none => .error .notFound
  | some _ =>
    if 10 ≤ actionCount db complaintId then .error .limitExceeded
    else match findActivePerson db payload.responsiblePerson with
      | none => .error .invalidReference
      | some _ =>
        let n := get_next_action_number db complaintId
        let newAction : FollowUpAction :=
          { id := nextActionId db, complaintId := complaintId, actionNumber := n,
            actionText := payload.actionText,
            responsiblePerson := payload.responsiblePerson,
            dueDate := payload.dueDate, status := .open_,
            priority := payload.priority, notes := payload.notes,
            completionPercentage := 0, startedAt := none, completedAt := none }
        let db1 := { db with actions := db.actions ++ [newAction] }
        let db2 := create_action_history db1 newAction.id "created" none
          (some ("Action #" ++ toString n ++ " created")) changedBy none
        .ok (db2, newAction)

/-- Request body `FollowUpActionUpdate`: every field optional; for the
nullable columns (`due_date`, `notes`) an outer `none` means the field was
not submitted (`exclude_unset`) while `some none` is an explicit null. -/
structure FollowUpActionUpdate where
  actionText : Option String
  responsiblePerson : Option String
  dueDate : Option (Option Int)
  status : Option ActionStatus
  priority : Option ActionPriority
  notes : Option (Option String)
  completionPercentage : Option Nat
deriving DecidableEq, Repr

/-- The update in which no field is submitted. -/
def emptyUpdate : FollowUpActionUpdate :=
  { actionText := none, responsiblePerson := none, dueDate := none,
    status := none, priority := none, notes := none,
    completionPercentage := none }

/-- One entry of the `changes` dict of `update_action`, already stringified
the way `create_action_history` receives it (`str(v)` for present values,
null kept as absence). -/
structure FieldChange where
  field : String
  oldVal : Option String
  newVal : Option String
deriving DecidableEq, Repr

/-- Diff of one submitted field against the stored value: a change is
recorded exactly when the field was submitted and differs from the stored
value. -/
def diffField {α : Type} [DecidableEq α] (name : String) (stored : α)
    (submitted : Option α) (toStr : α → Option String) : List FieldChange :=
  match submitted with
  | none => []
  | some v => if v = stored then [] else [⟨name, toStr stored, toStr v⟩]

/-- The `changes` dict of `update_action`, in the field order of the
`FollowUpActionUpdate` schema (the iteration order of the Python dict). -/
def computeChanges (a : FollowUpAction) (u : FollowUpActionUpdate) : List FieldChange :=
  diffField "action_text" a.actionText u.actionText (fun s => some s)
  ++ diffField "responsible_person" a.responsiblePerson u.responsiblePerson (fun s => some s)
  ++ diffField "due_date" a.dueDate u.dueDate (fun d => d.map toString)
  ++ diffField "status" a.status u.status (fun s => some (statusStr s))
  ++ diffField "priority" a.priority u.priority (fun p => some (priorityStr p))
  ++ diffField "notes" a.notes u.notes (fun s => s)
  ++ diffField "completion_percentage" a.completionPercentage u.completionPercentage
       (fun k => some (toString k))

/-- `setattr` of one submitted field (writing an equal value is a no-op, so
the guard `old_value != value` does not change the result). -/
def applyField {α : Type} (stored : α) (submitted : Option α) : α :=
  match submitted with
  | none => stored
  | some v => v

/-- All `setattr`s of the update loop of `update_action`. -/
def applyUpdate (a : FollowUpAction) (u : FollowUpActionUpdate) : FollowUpAction :=
  { a with
    actionText := applyField a.actionText u.actionText,
    responsiblePerson := applyField a.responsiblePerson u.responsiblePerson,
    dueDate := applyField a.dueDate u.dueDate,
    status := applyField a.status u.status,
    priority := applyField a.priority u.priority,
    notes := applyField a.notes u.notes,
    completionPercentage := applyField a.completionPercentage u.completionPercentage }

/-- Overwrite the row of the action identified by `(complaint_id, action_id)`
(the primary-key identity of the mutated ORM object). -/
def replaceAction (db : DB) (complaintId actionId : Nat)
    (f : FollowUpAction → FollowUpAction) : DB :=
  { db with actions := db.actions.map (fun x =>
      if x.id == actionId && x.complaintId == complaintId then f x else x) }

/-- Endpoint `PUT /{action_id}` (`update_action`): per-field diff, status
transition side effects when `status` is among the changes, re-validation of
a changed `responsible_person` (error aborts before commit, leaving the
store unchanged), then one commit of the changed fields followed by one
audit row per changed field; a diff with no changes returns the action
unchanged and writes nothing. -/
def update_action (db : DB) (complaintId actionId : Nat)
    (u : FollowUpActionUpdate) (changedBy : String) (now : Int) :
    Except ApiError (DB × FollowUpAction) :=
  match findAction db complaintId actionId with
  | none => .error .notFound
  | some a =>
    let changes := computeChanges a u
    let a1 := applyUpdate a u
    let a2 := match u.status with
      | some s => if s = a.status then a1 else handle_status_transition a1 s now
      | none => a1
    let respInvalid : Bool := match u.responsiblePerson with
      | some r => if r = a.responsiblePerson then false else (findActivePerson db r).isNone
      | none => false
    if respInvalid then .error .invalidReference
    else if changes.isEmpty then .ok (db, a)
    else
      let db1 := replaceAction db complaintId actionId (fun _ => a2)
      let db2 := { db1 with history := db1.history ++ changes.map (fun ch =>
        { actionId := actionId, fieldChanged := ch.field, oldValue := ch.oldVal,
          newValue := ch.newVal, changedBy := changedBy, changeReason := none }) }
      .ok (db2, a2)

/-- Endpoint `DELETE /{action_id}` (`delete_action`): soft delete — set
`status = "cancelled"` on the row (no row removal) and append one audit row
with reason `"Action deleted"`. -/
def delete_action (db : DB) (complaintId actionId : Nat) (changedBy : String) :
    Except ApiError (DB × String) :=
  match findAction db complaintId actionId with
  | none => .error .notFound
  | some a =>
    let db1 := replaceAction db complaintId actionId
      (fun x => { x with status := .cancelled })
    let db2 := create_action_history db1 actionId "status" (some (statusStr a.status))
      (some "cancelled") changedBy (some "Action deleted")
    .ok (db2, "Action cancelled successfully")

/-- The renumbering of one non-moved action of the complaint during a
reorder: moving down (`old < new`) decrements the numbers in `(old, new]`;
moving up (`new < old`) increments the numbers in `[new, old)`. -/
def shiftNumber (oldPos newPos : Nat) (a : FollowUpAction) : FollowUpAction :=
  if oldPos < newPos ∧ oldPos < a.actionNumber ∧ a.actionNumber ≤ newPos then
    { a with actionNumber := a.actionNumber - 1 }
  else if newPos < oldPos ∧ newPos ≤ a.actionNumber ∧ a.actionNumber < oldPos then
    { a with actionNumber := a.actionNumber + 1 }
  else a

/-- Endpoint `POST /{action_id}/reorder` (`reorder_actions`): the query
parameter is declared `ge=1, le=10` (out-of-bounds requests are rejected by
the framework, modelled as `validationError`); a position beyond the number
of actions of the complaint is `invalidPosition`; equal old and new
positions are a no-op; otherwise the complaint rows in the affected range
shift by one, the moved row takes `new_position`, and one audit row with
reason `"Action reordered"` is appended. -/
def reorder_actions (db : DB) (complaintId actionId : Nat) (newPosition : Nat)
    (changedBy : String) : Except ApiError (DB × String) :=
  if newPosition < 1 ∨ 10 < newPosition then .error .validationError
  else match findAction db complaintId actionId with
  | none => .error .notFound
  | some a =>
    if actionCount db complaintId < newPosition then .error .invalidPosition
    else
      let oldPos := a.actionNumber
      let msg := "Action moved from position " ++ toString oldPos ++ " to "
        ++ toString newPosition
      if oldPos = newPosition then .ok (db, msg)
      else
        let db1 : DB := { db with actions := db.actions.map (fun x =>
          if x.complaintId == complaintId then
            (if x.id == actionId then { x with actionNumber := newPosition }
             else shiftNumber oldPos newPosition x)
          else x) }
        let db2 := create_action_history db1 actionId "action_number"
          (some (toString oldPos)) (some (toString newPosition)) changedBy
          (some "Action reordered")
        .ok (db2, msg)

/-- Endpoint `POST /{action_id}/start` (`start_action`): only from status
`open`; gated on `validate_action_dependencies`; on success the status
becomes `in_progress`, the transition side effects apply, and one audit row
with reason `"Action started"` is appended. -/
def start_action (db : DB) (complaintId actionId : Nat) (changedBy : String)
    (now : Int) : Except ApiError (DB × String) :=
  match findAction db complaintId actionId with
  | none => .error .notFound
  | some a =>
    if a.status ≠ .open_ then .error .invalidTransition
    else if ¬ validate_action_dependencies db actionId then .error .dependencyUnsatisfied
    else
      let a1 := handle_status_transition { a with status := .in_progress }
        .in_progress now
      let db1 := replaceAction db complaintId actionId (fun _ => a1)
      let db2 := create_action_history db1 actionId "status"
        (some (statusStr a.status)) (some (statusStr .in_progress)) changedBy
        (some "Action started")
      .ok (db2, "Action started successfully")

/-- Request body `ActionDependencyCreate`. -/
structure ActionDependencyCreate where
  dependsOnActionId : Nat
  dependencyType : String
deriving DecidableEq, Repr

/-- Endpoint `POST /{action_id}/dependencies` (`create_dependency`): both
actions must exist in the complaint; the edge is rejected as circular
exactly when the direct reverse edge `depends_on_action_id → action_id`
already exists; otherwise the edge is inserted. -/
def create_dependency (db : DB) (complaintId actionId : Nat)
    (payload : ActionDependencyCreate) : Except ApiError (DB × ActionDependency) :=
  match findAction db complaintId actionId,
        findAction db complaintId payload.dependsOnActionId with
  | some _, some _ =>
    match db.dependencies.find? (fun d =>
        d.actionId == payload.dependsOnActionId && d.dependsOnActionId == actionId) with
    | some _ => .error .circularDependency
    | none =>
      let newDep : ActionDependency :=
        { actionId := actionId, dependsOnActionId := payload.dependsOnActionId,
          dependencyType := payload.dependencyType }
      .ok ({ db with dependencies := db.dependencies ++ [newDep] }, newDep)
  | _, _ => .error .notFound

/-- The non-deleted complaints with a company id, restricted to
`date_received >= start` when a window start is given (the `aggregate`
helper of `get_top_companies`). -/
def companiesMatching (db : DB) (startDate : Option Int) : List Complaint :=
  db.complaints.filter (fun c => !c.isDeleted && c.companyId.isSome &&
    (match startDate with
     | some s => decide (s ≤ c.dateReceived)
     | none => true))

/-- Count of matching complaints of one company. -/
def countCompany (cs : List Complaint) (cid : Nat) : Nat :=
  (cs.filter (fun c => c.companyId == some cid)).length

/-- `GROUP BY company_id ORDER BY count DESC LIMIT limit` over the matching
complaints. -/
def companiesAggregate (db : DB) (limit : Nat) (startDate : Option Int) :
    List (Nat × Nat) :=
  let cs := companiesMatching db startDate
  let ids := (cs.filterMap (fun c => c.companyId)).dedup
  ((ids.map (fun i => (i, countCompany cs i))).mergeSort
    (fun p q => q.2 ≤ p.2)).take limit

/-- The widening of `get_top_companies`: the requested window, then a
52-week window, then all time. -/
def top_companies_rows (db : DB) (limit : Nat) (weeks : Nat) (now : Int) :
    List (Nat × Nat) :=
  let rows1 := companiesAggregate db limit (some (now - 7 * (weeks : Int)))
  if rows1.isEmpty then
    let rows2 := companiesAggregate db limit (some (now - 7 * 52))
    if rows2.isEmpty then companiesAggregate db limit none
    else rows2
  else rows1

/-- Label of a company id: the company name, or the fallback string when the
row is missing. -/
def companyLabel (db : DB) (cid : Nat) : String :=
  match db.companies.find? (fun co => co.id == cid) with
  | some co => co.name
  | none => "Company " ++ toString cid

/-- Endpoint `GET /api/analytics/top/companies` (`get_top_companies`). -/
def get_top_companies (db : DB) (limit : Nat) (weeks : Nat) (now : Int) :
    List (String × Nat) :=
  (top_companies_rows db limit weeks now).map (fun r => (companyLabel db r.1, r.2))

/-- The non-deleted complaints with a part id, restricted to
`date_received >= start` when a window start is given (the `aggregate`
helper of `get_top_parts`). -/
def partsMatching (db : DB) (startDate : Option Int) : List Complaint :=
  db.complaints.filter (fun c => !c.isDeleted && c.partId.isSome &&
    (match startDate with
     | some s => decide (s ≤ c.dateReceived)
     | none => true))

/-- Count of matching complaints of one part. -/
def countPart (cs : List Complaint) (pid : Nat) : Nat :=
  (cs.filter (fun c => c.partId == some pid)).length

/-- `GROUP BY part_id ORDER BY count DESC LIMIT limit` over the matching
complaints. -/
def partsAggregate (db : DB) (limit : Nat) (startDate : Option Int) :
    List (Nat × Nat) :=
  let cs := partsMatching db startDate
  let ids := (cs.filterMap (fun c => c.partId)).dedup
  ((ids.map (fun i => (i, countPart cs i))).mergeSort
    (fun p q => q.2 ≤ p.2)).take limit

/-- The widening of `get_top_parts`: the requested window, then a 52-week
window, then all time. -/
def top_parts_rows (db : DB) (limit : Nat) (weeks : Nat) (now : Int) :
    List (Nat × Nat) :=
  let rows1 := partsAggregate db limit (some (now - 7 * (weeks : Int)))
  if rows1.isEmpty then
    let rows2 := partsAggregate db limit (some (now - 7 * 52))
    if rows2.isEmpty then partsAggregate db limit none
    else rows2
  else rows1

/-- Label of a part id: the part number, or the fallback string when the row
is missing. -/
def partLabel (db : DB) (pid : Nat) : String :=
  match db.parts.find? (fun p => p.id == pid) with
  | some p => p.partNumber
  | none => "Part " ++ toString pid

/-- Endpoint `GET /api/analytics/top/parts` (`get_top_parts`). -/
def get_top_parts (db : DB) (limit : Nat) (weeks : Nat) (now : Int) :
    List (String × Nat) :=
  (top_parts_rows db limit weeks now).map (fun r => (partLabel db r.1, r.2))

/-- Action ids are a primary key: pairwise distinct. -/
def actionIdsNodup (db : DB) : Prop :=
  (db.actions.map (fun a => a.id)).Nodup

/-- The `action_number` values of the stored actions of a complaint. -/
def complaintNumbers (db : DB) (complaintId : Nat) : List Nat :=
  (complaintActions db complaintId).map (fun a => a.actionNumber)

/-- Dense 1..N numbering of the actions of a complaint: the numbers are
pairwise distinct and are exactly `{1, ..., N}` where `N` is the number of
actions. -/
def DenseNumbering (db : DB) (complaintId : Nat) : Prop :=
  (complaintNumbers db complaintId).Nodup ∧
  ∀ n, n ∈ complaintNumbers db complaintId ↔
    1 ≤ n ∧ n ≤ (complaintNumbers db complaintId).length

/-- One reorder request against a complaint, keeping the previous state when
the endpoint answers with an error. -/
def reorderStep (db : DB) (complaintId : Nat) (op : Nat × Nat) : DB :=
  match reorder_actions db complaintId op.1 op.2 "System" with
  | .ok (db1, _) => db1
  | .error _ => db

/-- One delete (cancel) request, keeping the previous state when the
endpoint answers with an error. -/
def deleteStep (db : DB) (complaintId : Nat) (actionId : Nat) : DB :=
  match delete_action db complaintId actionId "System" with
  | .ok (db1, _) => db1
  | .error _ => db

/-- The audit row `update_action` writes for one changed field. -/
def auditRow (aid : Nat) (actor : String) (field : String)
    (o n : Option String) : ActionHistory :=
  { actionId := aid, fieldChanged := field, oldValue := o, newValue := n,
    changedBy := actor, changeReason := none }

/-- All audit rows `update_action` writes for one successful call: one per
entry of the computed change set, in order. -/
def auditRows (a : FollowUpAction) (u : FollowUpActionUpdate) (aid : Nat)
    (actor : String) : List ActionHistory :=
  (computeChanges a u).map (fun ch => auditRow aid actor ch.field ch.oldVal ch.newVal)

/-- The renumbering a reorder from position `oldPos` to `newPos` induces on
the `action_number` values of the complaint: the moved number goes to
`newPos`, the numbers strictly between shift by one towards the vacated
position, the rest are unchanged. -/
def shiftMap (oldPos newPos n : Nat) : Nat :=
  if n = oldPos then newPos
  else if oldPos < newPos ∧ oldPos < n ∧ n ≤ newPos then n - 1
  else if newPos < oldPos ∧ newPos ≤ n ∧ n < oldPos then n + 1
  else n

/-- Inverse of `shiftMap` on `{1, ..., N}`. -/
def shiftMapInv (oldPos newPos m : Nat) : Nat :=
  if m = newPos then oldPos
  else if oldPos < newPos ∧ oldPos ≤ m ∧ m < newPos then m + 1
  else if newPos < oldPos ∧ newPos < m ∧ m ≤ oldPos then m - 1
  else m

/-! ### Concrete fixtures used by witnesses -/

/-- An active responsible person. -/
def alice : ResponsiblePerson :=
  { name := "Alice", email := none, department := none, isActive := true }

/-- A live complaint. -/
def complaintOne : Complaint :=
  { id := 1, companyId := some 1, partId := some 1, dateReceived := 100,
    isDeleted := false }

/-- An open action of complaint 1 with id `i` and number `n`. -/
def sampleAction (i n : Nat) : FollowUpAction :=
  { id := i, complaintId := 1, actionNumber := n, actionText := "do the thing",
    responsiblePerson := "Alice", dueDate := none, status := .open_,
    priority := .medium, notes := none, completionPercentage := 0,
    startedAt := none, completedAt := none }

/-- A valid creation payload naming Alice. -/
def basePayload : FollowUpActionCreate :=
  { actionText := "do the thing", responsiblePerson := "Alice", dueDate := none,
    priority := .medium, notes := none }

/-- Store with complaint 1, Alice, and `k` open actions numbered 1..k. -/
def dbWith (k : Nat) : DB :=
  { complaints := [complaintOne], companies := [], parts := [],
    actions := (List.range k).map (fun i => sampleAction (i + 1) (i + 1)),
    history := [], persons := [alice], dependencies := [] }

/-- Store whose single complaint is soft-deleted. -/
def dbDeleted : DB :=
  { complaints := [{ complaintOne with isDeleted := true }], companies := [],
    parts := [], actions := [], history := [], persons := [alice],
    dependencies := [] }

/-- An update payload that only renames the responsible person to Bob, who
is not registered. -/
def updBob : FollowUpActionUpdate :=
  { emptyUpdate with responsiblePerson := some "Bob" }

/-- A dependency-creation payload on target `k`. -/
def depPayload (k : Nat) : ActionDependencyCreate :=
  { dependsOnActionId := k, dependencyType := "sequential" }

/-- The dependency edge `i` → `j`. -/
def edge (i j : Nat) : ActionDependency :=
  { actionId := i, dependsOnActionId := j, dependencyType := "sequential" }

/-- Store with three actions and the dependency edge 1 → 2. -/
def dbDepA : DB :=
  { dbWith 3 with dependencies := [edge 1 2] }

/-- Store with three actions and the dependency edges 1 → 2 and 2 → 3. -/
def dbDepB : DB :=
  { dbWith 3 with dependencies := [edge 1 2, edge 2 3] }

/-- The stored action after a successful `start_action`: status
`in_progress`, with `started_at` stamped at `now` when it was unset and kept
otherwise. -/
def startedAction (a : FollowUpAction) (now : Int) : FollowUpAction :=
  { a with status := .in_progress, startedAt := some (a.startedAt.getD now) }

/-- Store with two actions where action 2 depends on the still-open action 1. -/
def dbStartBlocked : DB :=
  { dbWith 2 with dependencies := [edge 2 1] }

/-- A complaint received at day 0 for company 7 and part 3. -/
def anComplaint : Complaint :=
  { id := 1, companyId := some 7, partId := some 3, dateReceived := 0,
    isDeleted := false }

/-- Analytics store: one old complaint, no company or part rows. -/
def dbAnalytics : DB :=
  { complaints := [anComplaint], companies := [], parts := [], actions := [],
    history := [], persons := [], dependencies := [] }

/-- Store with two actions where action 2 depends on action 1, which is
closed. -/
def dbStartReady : DB :=
  { dbStartBlocked with
    actions := [{ sampleAction 1 1 with status := .closed }, sampleAction 2 2] }



/-! ### Helper lemmas -/

theorem foldr_max_mem (l : List Nat) (h : l ≠ []) : l.foldr max 0 ∈ l := by
  induction l with
  | nil => exact absurd rfl h
  | cons a t ih =>
    cases t with
    | nil => simp
    | cons b t2 =>
      have hmem := ih (by simp)
      show max a ((b :: t2).foldr max 0) ∈ a :: b :: t2
      rcases max_choice a ((b :: t2).foldr max 0) with h1 | h1
      · rw [h1]; exact List.mem_cons_self a _
      · rw [h1]; exact List.mem_cons_of_mem a hmem

theorem foldr_max_le (l : List Nat) : ∀ b ∈ l, b ≤ l.foldr max 0 := by
  induction l with
  | nil => intro b hb; simp at hb
  | cons a t ih =>
    intro b hb
    rcases List.mem_cons.mp hb with h | h
    · subst h; exact Nat.le_max_left _ _
    · exact le_trans (ih b h) (Nat.le_max_right _ _)

theorem diffField_eq_nil {α : Type} [DecidableEq α] {name : String} {st : α}
    {sub : Option α} {ts : α → Option String} (h : diffField name st sub ts = []) :
    ∀ v, sub = some v → v = st := by
  intro v hv
  subst hv
  by_contra hne
  simp [diffField, hne] at h

theorem actions_map_filter (db : DB) (g : FollowUpAction → FollowUpAction)
    (hg : ∀ x, (g x).complaintId = x.complaintId) (cid : Nat) :
    complaintActions { db with actions := db.actions.map g } cid
      = (complaintActions db cid).map g := by
  unfold complaintActions
  simp only []
  rw [List.filter_map]
  congr 1
  apply List.filter_congr
  intro x _
  simp [Function.comp, hg x]

theorem actionCount_map (db : DB) (g : FollowUpAction → FollowUpAction)
    (hg : ∀ x, (g x).complaintId = x.complaintId) (cid : Nat) :
    actionCount { db with actions := db.actions.map g } cid = actionCount db cid := by
  unfold actionCount
  rw [actions_map_filter db g hg cid, List.length_map]

theorem findAction_map (db : DB) (g : FollowUpAction → FollowUpAction)
    (hg : ∀ x, (g x).id = x.id ∧ (g x).complaintId = x.complaintId)
    (cid aid : Nat) :
    findAction { db with actions := db.actions.map g } cid aid
      = (findAction db cid aid).map g := by
  unfold findAction
  simp only []
  rw [List.find?_map]
  have hpe : ((fun a => a.id == aid && a.complaintId == cid) ∘ g)
      = (fun (a : FollowUpAction) => a.id == aid && a.complaintId == cid) := by
    funext x
    simp [Function.comp, (hg x).1, (hg x).2]
  rw [hpe]

/-! ### Claim C2 -/

/-- Claim C2: for every action and every status update applied through the
lifecycle manager, a transition into `in_progress` with `started_at` unset
stamps `started_at = now` and repeating the transition does not change an
already-set `started_at`; a transition into `closed` with `completed_at`
unset stamps `completed_at = now` and forces `completion_percentage = 100`;
no other transition has a side effect.  Stated both for the transition hook
`handle_status_transition` itself and for its invocation inside
`update_action` (which fires exactly when the submitted status differs from
the stored one). -/
theorem status_transition_side_effects (a : FollowUpAction) (s : ActionStatus)
    (now now2 : Int) :
    (a.startedAt = none →
      handle_status_transition a .in_progress now = { a with startedAt := some now })
  ∧ (a.startedAt ≠ none → handle_status_transition a .in_progress now = a)
  ∧ (handle_status_transition (handle_status_transition a .in_progress now) .in_progress now2
       = handle_status_transition a .in_progress now)
  ∧ (a.completedAt = none → handle_status_transition a .closed now
       = { a with completedAt := some now, completionPercentage := 100 })
  ∧ (a.completedAt ≠ none → handle_status_transition a .closed now = a)
  ∧ (s ≠ .in_progress → s ≠ .closed → handle_status_transition a s now = a)
  ∧ (∀ db cid aid u actor db2 a2, findAction db cid aid = some a → u.status = some s →
       update_action db cid aid u actor now = .ok (db2, a2) →
       (a2.startedAt = if s = .in_progress ∧ a.status ≠ .in_progress ∧ a.startedAt = none
           then some now else a.startedAt)
     ∧ (a2.completedAt = if s = .closed ∧ a.status ≠ .closed ∧ a.completedAt = none
           then some now else a.completedAt)
     ∧ (s = .closed → a.status ≠ .closed → a.completedAt = none →
           a2.completionPercentage = 100)) := by
  refine ⟨?_, ?_, ?_, ?_, ?_, ?_, ?_⟩
  · intro h; simp [handle_status_transition, h]
  · intro h; simp [handle_status_transition, h]
  · rcases ha : a.startedAt with _ | t <;> simp [handle_status_transition, ha]
  · intro h; simp [handle_status_transition, h]
  · intro h; simp [handle_status_transition, h]
  · intro h1 h2; simp [handle_status_transition, h1, h2]
  · intro db cid aid u actor db2 a2 hfind hs hok
    unfold update_action at hok
    rw [hfind] at hok
    simp only [] at hok
    split at hok
    · exact absurd hok (by simp)
    · split at hok
      case _ hempty =>
        obtain ⟨rfl, rfl⟩ : db = db2 ∧ a = a2 := by
          have h2 := hok
          simp only [Except.ok.injEq, Prod.mk.injEq] at h2
          exact ⟨h2.1, h2.2⟩
        have hnil : computeChanges a u = [] := by
          simpa [List.isEmpty_iff] using hempty
        rw [computeChanges] at hnil
        obtain ⟨hrest1, h7⟩ := List.append_eq_nil.mp hnil
        obtain ⟨hrest2, h6⟩ := List.append_eq_nil.mp hrest1
        obtain ⟨hrest3, h5⟩ := List.append_eq_nil.mp hrest2
        obtain ⟨hrest4, h4⟩ := List.append_eq_nil.mp hrest3
        have hsa : s = a.status := diffField_eq_nil h4 s hs
        subst hsa
        refine ⟨by rw [if_neg (by tauto)], by rw [if_neg (by tauto)], ?_⟩
        intro hc1 hc2; exact absurd hc1 hc2
      case _ hnempty =>
        have ha2 : a2 = (match u.status with
            | some s2 => if s2 = a.status then applyUpdate a u
                else handle_status_transition (applyUpdate a u) s2 now
            | none => applyUpdate a u) := by
          have h2 := hok
          simp only [Except.ok.injEq, Prod.mk.injEq] at h2
          exact h2.2.symm
        rw [hs] at ha2
        simp only [] at ha2
        clear hok
        by_cases hcs : s = a.status
        · rw [if_pos hcs] at ha2
          subst ha2
          subst hcs
          refine ⟨?_, ?_, ?_⟩
          · rw [if_neg (by tauto)]; simp [applyUpdate]
          · rw [if_neg (by tauto)]; simp [applyUpdate]
          · intro hc1 hc2; exact absurd hc1 hc2
        · rw [if_neg hcs] at ha2
          subst ha2
          refine ⟨?_, ?_, ?_⟩
          · rw [handle_status_transition]
            split_ifs with hc1 hc2 <;>
              simp_all [applyUpdate]
          · rw [handle_status_transition]
            split_ifs with hc1 hc2 <;>
              simp_all [applyUpdate]
          · intro hs2 hst2 hct2
            subst hs2
            rw [handle_status_transition]
            split_ifs with hc1 hc2 <;> simp_all [applyUpdate]

/-- Witness for C2 at a concrete action with `started_at` unset. -/
theorem status_transition_side_effects_witness :
    handle_status_transition (sampleAction 1 1) .in_progress 5
      = { sampleAction 1 1 with startedAt := some 5 } :=
  (status_transition_side_effects (sampleAction 1 1) .blocked 5 7).1 rfl


/-! ### Claim C4 -/

theorem get_next_eq (db : DB) (cid : Nat) :
    get_next_action_number db cid = (complaintNumbers db cid).foldr max 0 + 1 := rfl

/-- Claim C4: for every complaint, `create_action` succeeds while the
complaint has fewer than 10 actions, assigning an `action_number` strictly
larger than every existing one — namely max existing + 1, which is 1 when no
action exists — and fails with `limitExceeded` as soon as 10 or more actions
exist. -/
theorem create_action_cap (db : DB) (cid : Nat) (p : FollowUpActionCreate)
    (actor : String)
    (hc : findComplaint db cid ≠ none)
    (hp : findActivePerson db p.responsiblePerson ≠ none) :
    (actionCount db cid < 10 →
      ∃ db2 act, create_action db cid p actor = .ok (db2, act) ∧
        actionCount db2 cid = actionCount db cid + 1 ∧
        (∀ m ∈ complaintNumbers db cid, m < act.actionNumber) ∧
        (complaintNumbers db cid = [] → act.actionNumber = 1) ∧
        (complaintNumbers db cid ≠ [] →
          ∃ m ∈ complaintNumbers db cid, act.actionNumber = m + 1))
  ∧ (10 ≤ actionCount db cid → create_action db cid p actor = .error .limitExceeded) := by
  obtain ⟨c, hc2⟩ := Option.ne_none_iff_exists'.mp hc
  obtain ⟨pr, hp2⟩ := Option.ne_none_iff_exists'.mp hp
  constructor
  · intro hlt
    unfold create_action
    rw [hc2, hp2]
    rw [if_neg (by omega)]
    refine ⟨_, _, rfl, ?_, ?_, ?_, ?_⟩
    · simp [actionCount, complaintActions, create_action_history, List.filter_append]
    · intro m hm
      have := foldr_max_le (complaintNumbers db cid) m hm
      show m < (complaintNumbers db cid).foldr max 0 + 1
      omega
    · intro hempty
      rw [get_next_eq, hempty]
      rfl
    · intro hne
      exact ⟨(complaintNumbers db cid).foldr max 0,
        foldr_max_mem _ hne, get_next_eq db cid⟩
  · intro hge
    unfold create_action
    rw [hc2]
    rw [if_pos hge]

/-- Witness for C4: with 9 existing actions the 10th creation succeeds;
with 10 existing actions the 11th fails with `limitExceeded`. -/
theorem create_action_cap_witness :
    (∃ db2 act, create_action (dbWith 9) 1 basePayload "System" = .ok (db2, act) ∧
        actionCount db2 1 = actionCount (dbWith 9) 1 + 1 ∧
        (∀ m ∈ complaintNumbers (dbWith 9) 1, m < act.actionNumber) ∧
        (complaintNumbers (dbWith 9) 1 = [] → act.actionNumber = 1) ∧
        (complaintNumbers (dbWith 9) 1 ≠ [] →
          ∃ m ∈ complaintNumbers (dbWith 9) 1, act.actionNumber = m + 1)) ∧
    create_action (dbWith 10) 1 basePayload "System" = .error .limitExceeded :=
  ⟨(create_action_cap (dbWith 9) 1 basePayload "System" (by decide) (by decide)).1
      (by decide),
   (create_action_cap (dbWith 10) 1 basePayload "System" (by decide) (by decide)).2
      (by decide)⟩

/-! ### Claim C6 -/

/-- Claim C6: an `update_action` whose changed fields include
`responsible_person` naming a person who is missing or inactive fails with
`invalidReference`; since the error is raised before the commit, the store —
in particular, every field of the action — is unmodified (the embedding
returns no successor state on error). -/
theorem update_action_invalid_person (db : DB) (cid aid : Nat)
    (u : FollowUpActionUpdate) (actor : String) (now : Int) (a : FollowUpAction)
    (r : String) (hfind : findAction db cid aid = some a)
    (hr : u.responsiblePerson = some r) (hne : r ≠ a.responsiblePerson)
    (hmiss : findActivePerson db r = none) :
    update_action db cid aid u actor now = .error .invalidReference ∧
    ∀ db2 x, update_action db cid aid u actor now ≠ .ok (db2, x) := by
  have h1 : update_action db cid aid u actor now = .error .invalidReference := by
    unfold update_action
    rw [hfind]
    simp [hr, hne, hmiss]
  exact ⟨h1, by intro db2 x hx; rw [h1] at hx; exact absurd hx (by simp)⟩

/-- Witness for C6: renaming the responsible person of a stored action to
the unregistered "Bob" is rejected. -/
theorem update_action_invalid_person_witness :
    update_action (dbWith 1) 1 1 updBob "System" 0 = .error .invalidReference ∧
    ∀ db2 x, update_action (dbWith 1) 1 1 updBob "System" 0 ≠ .ok (db2, x) :=
  update_action_invalid_person (dbWith 1) 1 1 updBob "System" 0
    (sampleAction 1 1) "Bob" (by decide) (by decide) (by decide) (by decide)

/-! ### Claim C7 -/

/-- Claim C7 counterexample: the complaint of `dbDeleted` is soft-deleted
(`is_deleted = true`), yet `create_action` does not fail with `notFound` —
it succeeds, because the complaint lookup of `create_action` filters on the
id only and never consults the soft-delete flag. -/
theorem create_action_soft_deleted_cex :
    (findComplaint dbDeleted 1).map (fun c => c.isDeleted) = some true ∧
    create_action dbDeleted 1 basePayload "System" ≠ .error .notFound ∧
    ∃ db2 act, create_action dbDeleted 1 basePayload "System" = .ok (db2, act) := by
  have hok : ∃ db2 act, create_action dbDeleted 1 basePayload "System" = .ok (db2, act) :=
    ⟨_, _, rfl⟩
  refine ⟨by decide, ?_, hok⟩
  obtain ⟨db2, act, heq⟩ := hok
  rw [heq]
  simp

/-- Claim C7 (amended): `create_action` requires only that a complaint row
with the requested id exists: when the lookup finds no row the call fails
with `notFound`; when a row exists — soft-deleted or not — and the cap and
responsible-person checks pass, the call succeeds.  (The source performs no
`is_deleted` filter in this lookup.) -/
theorem create_action_existence_check (db : DB) (cid : Nat)
    (p : FollowUpActionCreate) (actor : String) :
    (findComplaint db cid = none → create_action db cid p actor = .error .notFound)
  ∧ (∀ c, findComplaint db cid = some c → actionCount db cid < 10 →
      findActivePerson db p.responsiblePerson ≠ none →
      ∃ db2 act, create_action db cid p actor = .ok (db2, act)) := by
  constructor
  · intro hnone
    unfold create_action
    rw [hnone]
  · intro c hsome hlt hp
    obtain ⟨pr, hp2⟩ := Option.ne_none_iff_exists'.mp hp
    unfold create_action
    rw [hsome, hp2]
    rw [if_neg (by omega)]
    exact ⟨_, _, rfl⟩

/-- Witness for the amended C7: creation against the soft-deleted complaint
of `dbDeleted` succeeds. -/
theorem create_action_existence_check_witness :
    ∃ db2 act, create_action dbDeleted 1 basePayload "System" = .ok (db2, act) :=
  (create_action_existence_check dbDeleted 1 basePayload "System").2
    { complaintOne with isDeleted := true } (by decide) (by decide) (by decide)


/-! ### Claim C8 -/

/-- Claim C8: with both actions present in the complaint, `create_dependency`
rejects with `circularDependency` exactly when the direct reverse edge
`depends_on_action_id → action_id` already exists; otherwise it inserts the
edge.  In particular cycles of length greater than 2 are not rejected: only
the direct reverse edge is consulted. -/
theorem dependency_cycle_guard (db : DB) (cid aid : Nat)
    (p : ActionDependencyCreate)
    (h1 : findAction db cid aid ≠ none)
    (h2 : findAction db cid p.dependsOnActionId ≠ none) :
    ((∃ d ∈ db.dependencies, d.actionId = p.dependsOnActionId ∧
        d.dependsOnActionId = aid) →
      create_dependency db cid aid p = .error .circularDependency)
  ∧ ((∀ d ∈ db.dependencies, ¬(d.actionId = p.dependsOnActionId ∧
        d.dependsOnActionId = aid)) →
      create_dependency db cid aid p = .ok
        ({ db with dependencies := db.dependencies ++ [⟨aid, p.dependsOnActionId,
            p.dependencyType⟩] },
         ⟨aid, p.dependsOnActionId, p.dependencyType⟩)) := by
  obtain ⟨x1, hx1⟩ := Option.ne_none_iff_exists'.mp h1
  obtain ⟨x2, hx2⟩ := Option.ne_none_iff_exists'.mp h2
  constructor
  · rintro ⟨d, hd, hda, hdd⟩
    have hfound : (db.dependencies.find? (fun d2 =>
        d2.actionId == p.dependsOnActionId && d2.dependsOnActionId == aid)).isSome := by
      rw [List.find?_isSome]
      exact ⟨d, hd, by simp [hda, hdd]⟩
    unfold create_dependency
    rw [hx1, hx2]
    obtain ⟨d2, hd2⟩ := Option.isSome_iff_exists.mp hfound
    rw [hd2]
  · intro hnone
    have hfound : db.dependencies.find? (fun d2 =>
        d2.actionId == p.dependsOnActionId && d2.dependsOnActionId == aid) = none := by
      rw [List.find?_eq_none]
      intro d hd
      have := hnone d hd
      simp only [Bool.and_eq_true, beq_iff_eq]
      tauto
    unfold create_dependency
    rw [hx1, hx2, hfound]

/-- Witness for C8: on a three-action complaint, adding 1 → 2 succeeds;
then 2 → 1 is rejected as circular; 2 → 3 succeeds (no direct reverse);
and closing the triangle with 3 → 1 also succeeds, so the length-3 cycle
1 → 2 → 3 → 1 is not rejected. -/
theorem dependency_cycle_guard_witness :
    (∃ r, create_dependency (dbWith 3) 1 1 (depPayload 2) = .ok r) ∧
    create_dependency dbDepA 1 2 (depPayload 1) = .error .circularDependency ∧
    (∃ r, create_dependency dbDepA 1 2 (depPayload 3) = .ok r) ∧
    (∃ r, create_dependency dbDepB 1 3 (depPayload 1) = .ok r) :=
  ⟨⟨_, (dependency_cycle_guard (dbWith 3) 1 1 (depPayload 2) (by decide)
      (by decide)).2 (by decide)⟩,
   (dependency_cycle_guard dbDepA 1 2 (depPayload 1) (by decide) (by decide)).1
      (by decide),
   ⟨_, (dependency_cycle_guard dbDepA 1 2 (depPayload 3) (by decide)
      (by decide)).2 (by decide)⟩,
   ⟨_, (dependency_cycle_guard dbDepB 1 3 (depPayload 1) (by decide)
      (by decide)).2 (by decide)⟩⟩

/-! ### Claim C10 -/

theorem deleteStep_complaints (db : DB) (cid aid : Nat) :
    (deleteStep db cid aid).complaints = db.complaints := by
  unfold deleteStep
  rcases hdel : delete_action db cid aid "System" with e | r
  · rfl
  · unfold delete_action at hdel
    rcases hfa : findAction db cid aid with _ | a
    · rw [hfa] at hdel; exact absurd hdel (by simp)
    · rw [hfa] at hdel
      simp only [Except.ok.injEq] at hdel
      rw [← hdel]
      rfl

theorem deleteStep_count (db : DB) (cid aid cid2 : Nat) :
    actionCount (deleteStep db cid aid) cid2 = actionCount db cid2 := by
  unfold deleteStep
  rcases hdel : delete_action db cid aid "System" with e | r
  · rfl
  · unfold delete_action at hdel
    rcases hfa : findAction db cid aid with _ | a
    · rw [hfa] at hdel; exact absurd hdel (by simp)
    · rw [hfa] at hdel
      simp only [Except.ok.injEq] at hdel
      rw [← hdel]
      show actionCount (create_action_history (replaceAction db cid aid _) aid
        _ _ _ _ _) cid2 = actionCount db cid2
      have hhist : ∀ (d : DB) f o n c rs, actionCount (create_action_history d aid f o n c rs) cid2
          = actionCount d cid2 := by
        intro d f o n c rs; rfl
      rw [hhist]
      exact actionCount_map db _ (by intro x; split <;> rfl) cid2

theorem foldl_deleteStep_complaints (db : DB) (cid : Nat) (aids : List Nat) :
    (aids.foldl (fun d aid => deleteStep d cid aid) db).complaints = db.complaints := by
  induction aids generalizing db with
  | nil => rfl
  | cons a t ih =>
    rw [List.foldl_cons, ih, deleteStep_complaints]

theorem foldl_deleteStep_count (db : DB) (cid : Nat) (aids : List Nat) (cid2 : Nat) :
    actionCount (aids.foldl (fun d aid => deleteStep d cid aid) db) cid2
      = actionCount db cid2 := by
  induction aids generalizing db with
  | nil => rfl
  | cons a t ih =>
    rw [List.foldl_cons, ih, deleteStep_count]

theorem findComplaint_congr (db db2 : DB) (cid : Nat)
    (h : db2.complaints = db.complaints) : findComplaint db2 cid = findComplaint db cid := by
  unfold findComplaint
  rw [h]

/-- Claim C10: cancelling never frees capacity under the 10-action cap.
Deleting an action keeps the row (status set to `cancelled`) and does not
change the action count of the complaint; the cap check of `create_action`
counts all stored rows regardless of status, so once a complaint holds 10
or more actions, `create_action` still fails with `limitExceeded` after any
sequence of delete (cancel) requests. -/
theorem cancelled_actions_never_free_capacity (db : DB) (cid : Nat) :
    (∀ aid actor db2 m, delete_action db cid aid actor = .ok (db2, m) →
       actionCount db2 cid = actionCount db cid ∧
       findAction db2 cid aid = (findAction db cid aid).map
         (fun x => { x with status := ActionStatus.cancelled }))
  ∧ (∀ aids : List Nat,
       actionCount (aids.foldl (fun d aid => deleteStep d cid aid) db) cid
         = actionCount db cid)
  ∧ (findComplaint db cid ≠ none → 10 ≤ actionCount db cid → ∀ p actor,
       create_action db cid p actor = .error .limitExceeded)
  ∧ (∀ aids : List Nat, findComplaint db cid ≠ none → 10 ≤ actionCount db cid →
       ∀ p actor,
       create_action (aids.foldl (fun d aid => deleteStep d cid aid) db) cid p actor
         = .error .limitExceeded) := by
  have hcreate : ∀ db3 : DB, findComplaint db3 cid ≠ none → 10 ≤ actionCount db3 cid →
      ∀ p actor, create_action db3 cid p actor = .error ApiError.limitExceeded := by
    intro db3 hc hge p actor
    obtain ⟨c, hc2⟩ := Option.ne_none_iff_exists'.mp hc
    unfold create_action
    rw [hc2]
    rw [if_pos hge]
  refine ⟨?_, ?_, hcreate db, ?_⟩
  · intro aid actor db2 m hdel
    unfold delete_action at hdel
    rcases hfa : findAction db cid aid with _ | a
    · rw [hfa] at hdel; exact absurd hdel (by simp)
    · rw [hfa] at hdel
      simp only [Except.ok.injEq, Prod.mk.injEq] at hdel
      obtain ⟨hdb2, _⟩ := hdel
      rw [← hdb2]
      constructor
      · show actionCount (create_action_history (replaceAction db cid aid _) aid
          _ _ _ _ _) cid = actionCount db cid
        have hhist : ∀ (d : DB) f o n c rs, actionCount (create_action_history d aid f o n c rs) cid
            = actionCount d cid := by
          intro d f o n c rs; rfl
        rw [hhist]
        exact actionCount_map db _ (by intro x; split <;> rfl) cid
      · show findAction (create_action_history (replaceAction db cid aid _) aid
          _ _ _ _ _) cid aid = _
        have hhist : ∀ (d : DB) f o n c rs, findAction (create_action_history d aid f o n c rs) cid aid
            = findAction d cid aid := by
          intro d f o n c rs; rfl
        rw [hhist]
        show findAction { db with actions := db.actions.map _ } cid aid = _
        rw [findAction_map db _ (by intro x; constructor <;> (split <;> rfl)) cid aid]
        have hfa2 := hfa
        unfold findAction at hfa2
        have hpa := List.find?_some hfa2
        rw [hfa]
        simp only [Bool.and_eq_true, beq_iff_eq] at hpa
        simp [hpa.1, hpa.2]
  · exact fun aids => foldl_deleteStep_count db cid aids cid
  · intro aids hc hge p actor
    apply hcreate
    · rw [findComplaint_congr db _ cid (foldl_deleteStep_complaints db cid aids)]
      exact hc
    · rw [foldl_deleteStep_count db cid aids cid]
      exact hge


/-! ### Claim C3 -/

/-- Claim C3: `start_action` fails with `invalidTransition` whenever the
current status is not exactly `open`; with status `open` it fails with
`dependencyUnsatisfied` whenever some dependency edge originating at the
action points to an existing action that is not `closed`; when the status is
`open` and every dependency target is `closed` it succeeds, setting the
status to `in_progress` and stamping `started_at` (kept when already set);
an action with no outgoing dependency edge is trivially startable. -/
theorem handle_fields (y : FollowUpAction) (s : ActionStatus) (n : Int) :
    (handle_status_transition y s n).id = y.id ∧
    (handle_status_transition y s n).complaintId = y.complaintId := by
  unfold handle_status_transition
  split_ifs <;> exact ⟨rfl, rfl⟩

/-- Claim C3: `start_action` fails with `invalidTransition` whenever the
current status is not exactly `open`; with status `open` it fails with
`dependencyUnsatisfied` whenever some dependency edge originating at the
action points to an existing action that is not `closed`; when the status is
`open` and every dependency target is `closed` it succeeds, setting the
status to `in_progress` and stamping `started_at` (kept when already set);
an action with no outgoing dependency edge is trivially startable. -/
theorem start_action_spec (db : DB) (cid aid : Nat) (actor : String) (now : Int)
    (a : FollowUpAction) (hfind : findAction db cid aid = some a)
    (hids : actionIdsNodup db) :
    (a.status ≠ .open_ → start_action db cid aid actor now = .error .invalidTransition)
  ∧ (a.status = .open_ →
      (∃ d ∈ db.dependencies, d.actionId = aid ∧
        ∃ t ∈ db.actions, t.id = d.dependsOnActionId ∧ t.status ≠ .closed) →
      start_action db cid aid actor now = .error .dependencyUnsatisfied)
  ∧ (a.status = .open_ →
      (∀ d ∈ db.dependencies, d.actionId = aid →
        ∀ t ∈ db.actions, t.id = d.dependsOnActionId → t.status = .closed) →
      ∃ db2 m, start_action db cid aid actor now = .ok (db2, m) ∧
        findAction db2 cid aid = some (startedAction a now))
  ∧ ((∀ d ∈ db.dependencies, d.actionId ≠ aid) →
      validate_action_dependencies db aid = true) := by
  have hnd : (db.actions.map (fun a => a.id)).Nodup := hids
  have hinj : ∀ x ∈ db.actions, ∀ y ∈ db.actions, x.id = y.id → x = y := by
    intro x hx y hy hxy
    exact List.inj_on_of_nodup_map hnd hx hy hxy
  refine ⟨?_, ?_, ?_, ?_⟩
  · intro hne
    unfold start_action
    rw [hfind]
    dsimp only
    rw [if_pos hne]
  · rintro hopen ⟨d, hd, hda, t, ht, htid, hts⟩
    have hval : validate_action_dependencies db aid = false := by
      unfold validate_action_dependencies
      rw [List.all_eq_false]
      refine ⟨d, List.mem_filter.mpr ⟨hd, by
        show (d.actionId == aid) = true
        simp only [hda, beq_self_eq_true]⟩, ?_⟩
      have hsome : (db.actions.find? (fun x => x.id == d.dependsOnActionId)).isSome := by
        rw [List.find?_isSome]
        exact ⟨t, ht, by
          show (t.id == d.dependsOnActionId) = true
          simp only [htid, beq_self_eq_true]⟩
      obtain ⟨t2, ht2⟩ := Option.isSome_iff_exists.mp hsome
      have ht2mem := List.mem_of_find?_eq_some ht2
      have ht2id : t2.id = d.dependsOnActionId := by
        have h3 := List.find?_some ht2
        simpa using h3
      have ht2t : t2 = t := hinj t2 ht2mem t ht (by rw [ht2id, htid])
      subst ht2t
      simp [ht2, hts]
    unfold start_action
    rw [hfind]
    dsimp only
    rw [if_neg (by simp [hopen])]
    rw [hval]
    rfl
  · intro hopen hall
    have hval : validate_action_dependencies db aid = true := by
      unfold validate_action_dependencies
      rw [List.all_eq_true]
      intro d hd
      obtain ⟨hdmem, hdaid⟩ := List.mem_filter.mp hd
      show (match db.actions.find? (fun x => x.id == d.dependsOnActionId) with
          | some target => target.status == ActionStatus.closed
          | none => true) = true
      rcases hfd : db.actions.find? (fun x => x.id == d.dependsOnActionId) with _ | t
      · rw [hfd]
      · rw [hfd]
        have htmem := List.mem_of_find?_eq_some hfd
        have htid : t.id = d.dependsOnActionId := by
          have h3 := List.find?_some hfd
          simpa using h3
        have h4 := hall d hdmem (by simpa using hdaid) t htmem htid
        show (t.status == ActionStatus.closed) = true
        simp [h4]
    have h2 := hfind
    unfold findAction at h2
    have hpa0 := List.find?_some h2
    have hpa : (a.id == aid && a.complaintId == cid) = true := hpa0
    obtain ⟨hpaid, hpacid⟩ : a.id = aid ∧ a.complaintId = cid := by simpa using hpa
    have ha1 : handle_status_transition { a with status := ActionStatus.in_progress }
        .in_progress now = startedAction a now := by
      rcases hst : a.startedAt with _ | t <;>
        simp [handle_status_transition, startedAction, hst]
    unfold start_action
    rw [hfind]
    dsimp only
    rw [if_neg (by simp [hopen])]
    rw [hval]
    rw [if_neg (by simp)]
    refine ⟨_, _, rfl, ?_⟩
    have hhist : ∀ (d : DB) f o n c rs,
        findAction (create_action_history d aid f o n c rs) cid aid
          = findAction d cid aid := fun _ _ _ _ _ _ => rfl
    rw [hhist]
    unfold replaceAction
    rw [findAction_map db _ (by
      intro x
      constructor <;> (split <;> rename_i hmx)
      · rw [(handle_fields _ _ _).1]
        show a.id = x.id
        have hx : x.id = aid ∧ x.complaintId = cid := by simpa using hmx
        rw [hpaid, hx.1]
      · rfl
      · rw [(handle_fields _ _ _).2]
        show a.complaintId = x.complaintId
        have hx : x.id = aid ∧ x.complaintId = cid := by simpa using hmx
        rw [hpacid, hx.2]
      · rfl) cid aid]
    rw [hfind]
    simp only [Option.map_some']
    rw [if_pos hpa]
    rw [ha1]
  · intro hnone
    unfold validate_action_dependencies
    have hfil : db.dependencies.filter (fun d => d.actionId == aid) = [] := by
      rw [List.filter_eq_nil_iff]
      intro d hd
      simp [hnone d hd]
    rw [hfil]
    rfl


/-- Witness for C3: starting action 2 while its dependency target (action 1)
is still open fails with `dependencyUnsatisfied`; once action 1 is closed,
the start succeeds and the stored action 2 is `in_progress` with
`started_at` stamped. -/
theorem start_action_spec_witness :
    start_action dbStartBlocked 1 2 "System" 9 = .error .dependencyUnsatisfied ∧
    ∃ db2 m, start_action dbStartReady 1 2 "System" 9 = .ok (db2, m) ∧
      findAction db2 1 2 = some (startedAction (sampleAction 2 2) 9) := by
  constructor
  · exact (start_action_spec dbStartBlocked 1 2 "System" 9 (sampleAction 2 2)
      (by decide)
      (by show (dbStartBlocked.actions.map (fun a => a.id)).Nodup
          decide)).2.1 rfl (by decide)
  · exact (start_action_spec dbStartReady 1 2 "System" 9 (sampleAction 2 2)
      (by decide)
      (by show (dbStartReady.actions.map (fun a => a.id)).Nodup
          decide)).2.2.1 rfl (by decide)

/-- Witness for C10: after cancelling actions 1, 2 and 3 of a complaint that
reached the 10-action cap, creating another action still fails with
`limitExceeded`. -/
theorem cancelled_actions_never_free_capacity_witness :
    create_action (([1, 2, 3] : List Nat).foldl
        (fun d aid => deleteStep d 1 aid) (dbWith 10)) 1 basePayload "System"
      = .error .limitExceeded :=
  (cancelled_actions_never_free_capacity (dbWith 10) 1).2.2.2 [1, 2, 3]
    (by decide) (by decide) basePayload "System"


/-! ### Claim C5 -/

theorem diffField_fields {α : Type} [DecidableEq α] (name : String) (st : α)
    (sub : Option α) (ts : α → Option String) :
    List.Sublist ((diffField name st sub ts).map (fun c => c.field)) [name] := by
  cases sub with
  | none => exact List.nil_sublist _
  | some v =>
    unfold diffField
    dsimp only
    by_cases hv : v = st
    · rw [if_pos hv]
      exact List.nil_sublist _
    · rw [if_neg hv]
      simp only [List.map_cons, List.map_nil]
      exact List.Sublist.refl _

theorem computeChanges_fields_sublist (a : FollowUpAction) (u : FollowUpActionUpdate) :
    List.Sublist ((computeChanges a u).map (fun c => c.field))
      ["action_text", "responsible_person", "due_date", "status", "priority",
       "notes", "completion_percentage"] := by
  unfold computeChanges
  simp only [List.map_append]
  exact
    List.Sublist.append
      (List.Sublist.append
        (List.Sublist.append
          (List.Sublist.append
            (List.Sublist.append
              (List.Sublist.append (diffField_fields _ _ _ _) (diffField_fields _ _ _ _))
              (diffField_fields _ _ _ _))
            (diffField_fields _ _ _ _))
          (diffField_fields _ _ _ _))
        (diffField_fields _ _ _ _))
      (diffField_fields _ _ _ _)

theorem computeChanges_fields_nodup (a : FollowUpAction) (u : FollowUpActionUpdate) :
    ((computeChanges a u).map (fun c => c.field)).Nodup :=
  List.Nodup.sublist (computeChanges_fields_sublist a u) (by decide)

theorem mem_diffField {α : Type} [DecidableEq α] {name : String} {st : α}
    {sub : Option α} {ts : α → Option String} {c : FieldChange} :
    c ∈ diffField name st sub ts ↔
      ∃ v, sub = some v ∧ v ≠ st ∧ c = ⟨name, ts st, ts v⟩ := by
  cases sub with
  | none => simp [diffField]
  | some v =>
    unfold diffField
    split
    · rename_i hv
      simp [hv]
    · rename_i hv
      simp [hv]

theorem mem_computeChanges (a : FollowUpAction) (u : FollowUpActionUpdate)
    (c : FieldChange) :
    c ∈ computeChanges a u ↔
      (((((((∃ v, u.actionText = some v ∧ v ≠ a.actionText ∧
          c = ⟨"action_text", some a.actionText, some v⟩)
      ∨ (∃ v, u.responsiblePerson = some v ∧ v ≠ a.responsiblePerson ∧
          c = ⟨"responsible_person", some a.responsiblePerson, some v⟩))
      ∨ (∃ v, u.dueDate = some v ∧ v ≠ a.dueDate ∧
          c = ⟨"due_date", a.dueDate.map toString, v.map toString⟩))
      ∨ (∃ v, u.status = some v ∧ v ≠ a.status ∧
          c = ⟨"status", some (statusStr a.status), some (statusStr v)⟩))
      ∨ (∃ v, u.priority = some v ∧ v ≠ a.priority ∧
          c = ⟨"priority", some (priorityStr a.priority), some (priorityStr v)⟩))
      ∨ (∃ v, u.notes = some v ∧ v ≠ a.notes ∧ c = ⟨"notes", a.notes, v⟩))
      ∨ (∃ v, u.completionPercentage = some v ∧ v ≠ a.completionPercentage ∧
          c = ⟨"completion_percentage", some (toString a.completionPercentage),
            some (toString v)⟩)) := by
  unfold computeChanges
  simp only [List.mem_append, mem_diffField]


theorem auditRows_spec (a : FollowUpAction) (u : FollowUpActionUpdate)
    (aid : Nat) (actor : String) :
    ((auditRows a u aid actor).map (fun h => h.fieldChanged)).Nodup
  ∧ (∀ h ∈ auditRows a u aid actor,
        h.actionId = aid ∧ h.changedBy = actor ∧ h.changeReason = none)
  ∧ (∀ o n, auditRow aid actor "action_text" o n ∈ auditRows a u aid actor ↔
        (∃ v, u.actionText = some v ∧ v ≠ a.actionText ∧
            o = some a.actionText ∧ n = some v))
  ∧ (∀ o n, auditRow aid actor "responsible_person" o n ∈ auditRows a u aid actor ↔
        (∃ v, u.responsiblePerson = some v ∧ v ≠ a.responsiblePerson ∧
            o = some a.responsiblePerson ∧ n = some v))
  ∧ (∀ o n, auditRow aid actor "due_date" o n ∈ auditRows a u aid actor ↔
        (∃ v, u.dueDate = some v ∧ v ≠ a.dueDate ∧
            o = a.dueDate.map toString ∧ n = v.map toString))
  ∧ (∀ o n, auditRow aid actor "status" o n ∈ auditRows a u aid actor ↔
        (∃ v, u.status = some v ∧ v ≠ a.status ∧
            o = some (statusStr a.status) ∧ n = some (statusStr v)))
  ∧ (∀ o n, auditRow aid actor "priority" o n ∈ auditRows a u aid actor ↔
        (∃ v, u.priority = some v ∧ v ≠ a.priority ∧
            o = some (priorityStr a.priority) ∧ n = some (priorityStr v)))
  ∧ (∀ o n, auditRow aid actor "notes" o n ∈ auditRows a u aid actor ↔
        (∃ v, u.notes = some v ∧ v ≠ a.notes ∧ o = a.notes ∧ n = v))
  ∧ (∀ o n, auditRow aid actor "completion_percentage" o n ∈ auditRows a u aid actor ↔
        (∃ v, u.completionPercentage = some v ∧ v ≠ a.completionPercentage ∧
            o = some (toString a.completionPercentage) ∧ n = some (toString v))) := by
  refine ⟨?_, ?_, ?_, ?_, ?_, ?_, ?_, ?_, ?_⟩
  · have hmm2 : (auditRows a u aid actor).map (fun h => h.fieldChanged)
        = (computeChanges a u).map (fun c => c.field) := by
      unfold auditRows
      rw [List.map_map]
      rfl
    rw [hmm2]
    exact computeChanges_fields_nodup a u
  · intro h hm
    obtain ⟨ch, _, rfl⟩ := List.mem_map.mp hm
    exact ⟨rfl, rfl, rfl⟩
  · intro o n
    simp only [auditRows, List.mem_map, mem_computeChanges, auditRow,
      ActionHistory.mk.injEq]
    constructor
    · rintro ⟨ch, ((((((⟨v, hv, hne, rfl⟩ | ⟨v, hv, hne, rfl⟩) | ⟨v, hv, hne, rfl⟩) |
          ⟨v, hv, hne, rfl⟩) | ⟨v, hv, hne, rfl⟩) | ⟨v, hv, hne, rfl⟩) |
          ⟨v, hv, hne, rfl⟩), -, hfield, ho, hn, -, -⟩
      all_goals first
        | exact ⟨v, hv, hne, ho.symm, hn.symm⟩
        | simp at hfield
    · rintro ⟨v, hv, hne, rfl, rfl⟩
      exact ⟨_, Or.inl (Or.inl (Or.inl (Or.inl (Or.inl (Or.inl (⟨_, hv, hne, rfl⟩)))))), trivial, rfl, rfl, rfl, trivial, trivial⟩
  · intro o n
    simp only [auditRows, List.mem_map, mem_computeChanges, auditRow,
      ActionHistory.mk.injEq]
    constructor
    · rintro ⟨ch, ((((((⟨v, hv, hne, rfl⟩ | ⟨v, hv, hne, rfl⟩) | ⟨v, hv, hne, rfl⟩) |
          ⟨v, hv, hne, rfl⟩) | ⟨v, hv, hne, rfl⟩) | ⟨v, hv, hne, rfl⟩) |
          ⟨v, hv, hne, rfl⟩), -, hfield, ho, hn, -, -⟩
      all_goals first
        | exact ⟨v, hv, hne, ho.symm, hn.symm⟩
        | simp at hfield
    · rintro ⟨v, hv, hne, rfl, rfl⟩
      exact ⟨_, Or.inl (Or.inl (Or.inl (Or.inl (Or.inl (Or.inr ⟨_, hv, hne, rfl⟩))))), trivial, rfl, rfl, rfl, trivial, trivial⟩
  · intro o n
    simp only [auditRows, List.mem_map, mem_computeChanges, auditRow,
      ActionHistory.mk.injEq]
    constructor
    · rintro ⟨ch, ((((((⟨v, hv, hne, rfl⟩ | ⟨v, hv, hne, rfl⟩) | ⟨v, hv, hne, rfl⟩) |
          ⟨v, hv, hne, rfl⟩) | ⟨v, hv, hne, rfl⟩) | ⟨v, hv, hne, rfl⟩) |
          ⟨v, hv, hne, rfl⟩), -, hfield, ho, hn, -, -⟩
      all_goals first
        | exact ⟨v, hv, hne, ho.symm, hn.symm⟩
        | simp at hfield
    · rintro ⟨v, hv, hne, rfl, rfl⟩
      exact ⟨_, Or.inl (Or.inl (Or.inl (Or.inl (Or.inr ⟨_, hv, hne, rfl⟩)))), trivial, rfl, rfl, rfl, trivial, trivial⟩
  · intro o n
    simp only [auditRows, List.mem_map, mem_computeChanges, auditRow,
      ActionHistory.mk.injEq]
    constructor
    · rintro ⟨ch, ((((((⟨v, hv, hne, rfl⟩ | ⟨v, hv, hne, rfl⟩) | ⟨v, hv, hne, rfl⟩) |
          ⟨v, hv, hne, rfl⟩) | ⟨v, hv, hne, rfl⟩) | ⟨v, hv, hne, rfl⟩) |
          ⟨v, hv, hne, rfl⟩), -, hfield, ho, hn, -, -⟩
      all_goals first
        | exact ⟨v, hv, hne, ho.symm, hn.symm⟩
        | simp at hfield
    · rintro ⟨v, hv, hne, rfl, rfl⟩
      exact ⟨_, Or.inl (Or.inl (Or.inl (Or.inr ⟨_, hv, hne, rfl⟩))), trivial, rfl, rfl, rfl, trivial, trivial⟩
  · intro o n
    simp only [auditRows, List.mem_map, mem_computeChanges, auditRow,
      ActionHistory.mk.injEq]
    constructor
    · rintro ⟨ch, ((((((⟨v, hv, hne, rfl⟩ | ⟨v, hv, hne, rfl⟩) | ⟨v, hv, hne, rfl⟩) |
          ⟨v, hv, hne, rfl⟩) | ⟨v, hv, hne, rfl⟩) | ⟨v, hv, hne, rfl⟩) |
          ⟨v, hv, hne, rfl⟩), -, hfield, ho, hn, -, -⟩
      all_goals first
        | exact ⟨v, hv, hne, ho.symm, hn.symm⟩
        | simp at hfield
    · rintro ⟨v, hv, hne, rfl, rfl⟩
      exact ⟨_, Or.inl (Or.inl (Or.inr ⟨_, hv, hne, rfl⟩)), trivial, rfl, rfl, rfl, trivial, trivial⟩
  · intro o n
    simp only [auditRows, List.mem_map, mem_computeChanges, auditRow,
      ActionHistory.mk.injEq]
    constructor
    · rintro ⟨ch, ((((((⟨v, hv, hne, rfl⟩ | ⟨v, hv, hne, rfl⟩) | ⟨v, hv, hne, rfl⟩) |
          ⟨v, hv, hne, rfl⟩) | ⟨v, hv, hne, rfl⟩) | ⟨v, hv, hne, rfl⟩) |
          ⟨v, hv, hne, rfl⟩), -, hfield, ho, hn, -, -⟩
      all_goals first
        | exact ⟨v, hv, hne, ho.symm, hn.symm⟩
        | simp at hfield
    · rintro ⟨v, hv, hne, rfl, rfl⟩
      exact ⟨_, Or.inl (Or.inr ⟨_, hv, hne, rfl⟩), trivial, rfl, rfl, rfl, trivial, trivial⟩
  · intro o n
    simp only [auditRows, List.mem_map, mem_computeChanges, auditRow,
      ActionHistory.mk.injEq]
    constructor
    · rintro ⟨ch, ((((((⟨v, hv, hne, rfl⟩ | ⟨v, hv, hne, rfl⟩) | ⟨v, hv, hne, rfl⟩) |
          ⟨v, hv, hne, rfl⟩) | ⟨v, hv, hne, rfl⟩) | ⟨v, hv, hne, rfl⟩) |
          ⟨v, hv, hne, rfl⟩), -, hfield, ho, hn, -, -⟩
      all_goals first
        | exact ⟨v, hv, hne, ho.symm, hn.symm⟩
        | simp at hfield
    · rintro ⟨v, hv, hne, rfl, rfl⟩
      exact ⟨_, Or.inr ⟨_, hv, hne, rfl⟩, trivial, rfl, rfl, rfl, trivial, trivial⟩


/-- Claim C5: for every successful `update_action` call the appended audit
rows are exactly `auditRows`: one row per changed field (no two rows share a
field name), each carrying the stringified old and new values (null
represented as absence) of precisely the submitted fields whose value
differs from the stored one — fields submitted with an unchanged value
produce no row; and a call whose diff is empty returns the action unchanged
and appends no history. -/
theorem update_action_audit (db : DB) (cid aid : Nat) (u : FollowUpActionUpdate)
    (actor : String) (now : Int) (a : FollowUpAction)
    (hfind : findAction db cid aid = some a) :
    (computeChanges a u = [] → update_action db cid aid u actor now = .ok (db, a))
  ∧ (∀ db2 a2, update_action db cid aid u actor now = .ok (db2, a2) →
      db2.history = db.history ++ auditRows a u aid actor)
  ∧ ((auditRows a u aid actor).map (fun h => h.fieldChanged)).Nodup
  ∧ (∀ h ∈ auditRows a u aid actor,
      h.actionId = aid ∧ h.changedBy = actor ∧ h.changeReason = none)
  ∧ (∀ o n, auditRow aid actor "status" o n ∈ auditRows a u aid actor ↔
      (∃ v, u.status = some v ∧ v ≠ a.status ∧
        o = some (statusStr a.status) ∧ n = some (statusStr v)))
  ∧ (∀ o n, auditRow aid actor "action_text" o n ∈ auditRows a u aid actor ↔
      (∃ v, u.actionText = some v ∧ v ≠ a.actionText ∧
        o = some a.actionText ∧ n = some v))
  ∧ (∀ o n, auditRow aid actor "responsible_person" o n ∈ auditRows a u aid actor ↔
      (∃ v, u.responsiblePerson = some v ∧ v ≠ a.responsiblePerson ∧
        o = some a.responsiblePerson ∧ n = some v))
  ∧ (∀ o n, auditRow aid actor "due_date" o n ∈ auditRows a u aid actor ↔
      (∃ v, u.dueDate = some v ∧ v ≠ a.dueDate ∧
        o = a.dueDate.map toString ∧ n = v.map toString))
  ∧ (∀ o n, auditRow aid actor "priority" o n ∈ auditRows a u aid actor ↔
      (∃ v, u.priority = some v ∧ v ≠ a.priority ∧
        o = some (priorityStr a.priority) ∧ n = some (priorityStr v)))
  ∧ (∀ o n, auditRow aid actor "notes" o n ∈ auditRows a u aid actor ↔
      (∃ v, u.notes = some v ∧ v ≠ a.notes ∧ o = a.notes ∧ n = v))
  ∧ (∀ o n, auditRow aid actor "completion_percentage" o n ∈ auditRows a u aid actor ↔
      (∃ v, u.completionPercentage = some v ∧ v ≠ a.completionPercentage ∧
        o = some (toString a.completionPercentage) ∧ n = some (toString v))) := by
  have hspec := auditRows_spec a u aid actor
  refine ⟨?_, ?_, hspec.1, hspec.2.1, hspec.2.2.2.2.2.1, hspec.2.2.1,
    hspec.2.2.2.1, hspec.2.2.2.2.1, hspec.2.2.2.2.2.2.1,
    hspec.2.2.2.2.2.2.2.1, hspec.2.2.2.2.2.2.2.2⟩
  · intro hempty
    have hresp : ∀ r, u.responsiblePerson = some r → r = a.responsiblePerson := by
      intro r hr
      rw [computeChanges] at hempty
      obtain ⟨h16, h7⟩ := List.append_eq_nil.mp hempty
      obtain ⟨h15, h6⟩ := List.append_eq_nil.mp h16
      obtain ⟨h14, h5⟩ := List.append_eq_nil.mp h15
      obtain ⟨h13, h4⟩ := List.append_eq_nil.mp h14
      obtain ⟨h12, h3⟩ := List.append_eq_nil.mp h13
      obtain ⟨h11, h2⟩ := List.append_eq_nil.mp h12
      exact diffField_eq_nil h2 r hr
    unfold update_action
    rw [hfind]
    dsimp only
    have hri : (match u.responsiblePerson with
        | some r => if r = a.responsiblePerson then false
            else (findActivePerson db r).isNone
        | none => false) = false := by
      cases hur : u.responsiblePerson with
      | none => rfl
      | some r =>
        dsimp only
        rw [if_pos (hresp r hur)]
    rw [hri, hempty]
    rfl
  · intro db2 a2 hok
    unfold update_action at hok
    rw [hfind] at hok
    simp only [] at hok
    split at hok
    · exact absurd hok (by simp)
    · split at hok
      case _ hempty =>
        obtain ⟨rfl, rfl⟩ : db = db2 ∧ a = a2 := by
          have h9 := hok
          simp only [Except.ok.injEq, Prod.mk.injEq] at h9
          exact ⟨h9.1, h9.2⟩
        have hnil : computeChanges a u = [] := by
          simpa [List.isEmpty_iff] using hempty
        unfold auditRows
        rw [hnil]
        simp
      case _ hnempty =>
        have h9 := hok
        simp only [Except.ok.injEq, Prod.mk.injEq] at h9
        rw [← h9.1]
        rfl

/-- Witness for C5 at a no-change update: the empty payload leaves the
store and the action untouched. -/
theorem update_action_audit_witness :
    update_action (dbWith 1) 1 1 emptyUpdate "System" 0 = .ok (dbWith 1, sampleAction 1 1) :=
  (update_action_audit (dbWith 1) 1 1 emptyUpdate "System" 0 (sampleAction 1 1)
    (by decide)).1 (by decide)


/-! ### Claim C9 -/

theorem topPipeline_nil_iff (ids : List Nat) (cnt : Nat → Nat) (limit : Nat)
    (hlim : 1 ≤ limit) :
    ((ids.map (fun i => (i, cnt i))).mergeSort (fun p q => q.2 ≤ p.2)).take limit = []
      ↔ ids = [] := by
  constructor
  · intro h
    rcases List.take_eq_nil_iff.mp h with h2 | h2
    · omega
    · have hperm := List.mergeSort_perm (ids.map (fun i => (i, cnt i)))
        (fun p q => q.2 ≤ p.2)
      rw [h2] at hperm
      have := hperm.symm.eq_nil
      exact List.map_eq_nil_iff.mp this
  · intro h
    subst h
    simp

theorem companiesMatching_isSome (db : DB) (startD : Option Int) :
    ∀ c ∈ companiesMatching db startD, c.companyId.isSome = true := by
  intro c hc
  unfold companiesMatching at hc
  have h2 := (List.mem_filter.mp hc).2
  simp only [Bool.and_eq_true] at h2
  exact h2.1.2

theorem partsMatching_isSome (db : DB) (startD : Option Int) :
    ∀ c ∈ partsMatching db startD, c.partId.isSome = true := by
  intro c hc
  unfold partsMatching at hc
  have h2 := (List.mem_filter.mp hc).2
  simp only [Bool.and_eq_true] at h2
  exact h2.1.2

theorem companiesAggregate_nil_iff (db : DB) (limit : Nat) (startD : Option Int)
    (hlim : 1 ≤ limit) :
    companiesAggregate db limit startD = [] ↔ companiesMatching db startD = [] := by
  unfold companiesAggregate
  rw [topPipeline_nil_iff _ _ _ hlim]
  rw [List.dedup_eq_nil, List.filterMap_eq_nil_iff]
  constructor
  · intro h
    apply List.eq_nil_iff_forall_not_mem.mpr
    intro c hc
    have hsome := companiesMatching_isSome db startD c hc
    rw [h c hc] at hsome
    exact absurd hsome (by simp)
  · intro h
    rw [h]
    intro a ha
    exact absurd ha (List.not_mem_nil a)

theorem partsAggregate_nil_iff (db : DB) (limit : Nat) (startD : Option Int)
    (hlim : 1 ≤ limit) :
    partsAggregate db limit startD = [] ↔ partsMatching db startD = [] := by
  unfold partsAggregate
  rw [topPipeline_nil_iff _ _ _ hlim]
  rw [List.dedup_eq_nil, List.filterMap_eq_nil_iff]
  constructor
  · intro h
    apply List.eq_nil_iff_forall_not_mem.mpr
    intro c hc
    have hsome := partsMatching_isSome db startD c hc
    rw [h c hc] at hsome
    exact absurd hsome (by simp)
  · intro h
    rw [h]
    intro a ha
    exact absurd ha (List.not_mem_nil a)


/-- Claim C9: for `top/companies` and `top/parts`, when the requested window
has no matching non-deleted complaint the aggregation widens to a 52-week
window and then to all time before an empty list is returned; hence a store
with no complaint in the requested window but matching complaints overall
yields a non-empty result; and an id whose company/part row is missing is
labeled with the fallback string. -/
theorem top_aggregation_widening (db : DB) (limit weeks : Nat) (now : Int)
    (hlim : 1 ≤ limit) :
    (companiesAggregate db limit (some (now - 7 * (weeks : Int))) = [] →
      companiesAggregate db limit (some (now - 7 * 52)) = [] →
      top_companies_rows db limit weeks now = companiesAggregate db limit none)
  ∧ (companiesMatching db (some (now - 7 * (weeks : Int))) = [] →
      companiesMatching db none ≠ [] →
      get_top_companies db limit weeks now ≠ [])
  ∧ (∀ cid cnt, (cid, cnt) ∈ top_companies_rows db limit weeks now →
      db.companies.find? (fun co => co.id == cid) = none →
      ("Company " ++ toString cid, cnt) ∈ get_top_companies db limit weeks now)
  ∧ (partsAggregate db limit (some (now - 7 * (weeks : Int))) = [] →
      partsAggregate db limit (some (now - 7 * 52)) = [] →
      top_parts_rows db limit weeks now = partsAggregate db limit none)
  ∧ (partsMatching db (some (now - 7 * (weeks : Int))) = [] →
      partsMatching db none ≠ [] →
      get_top_parts db limit weeks now ≠ [])
  ∧ (∀ pid cnt, (pid, cnt) ∈ top_parts_rows db limit weeks now →
      db.parts.find? (fun q => q.id == pid) = none →
      ("Part " ++ toString pid, cnt) ∈ get_top_parts db limit weeks now) := by
  refine ⟨?_, ?_, ?_, ?_, ?_, ?_⟩
  · intro h1 h2
    unfold top_companies_rows
    rw [h1, h2]
    simp
  · intro hm1 hnn hmap
    have h1 : companiesAggregate db limit (some (now - 7 * (weeks : Int))) = [] :=
      (companiesAggregate_nil_iff db limit _ hlim).mpr hm1
    have hrows : top_companies_rows db limit weeks now = [] := by
      unfold get_top_companies at hmap
      exact List.map_eq_nil_iff.mp hmap
    unfold top_companies_rows at hrows
    rw [h1] at hrows
    simp only [List.isEmpty_nil, if_true] at hrows
    split at hrows
    · exact hnn ((companiesAggregate_nil_iff db limit none hlim).mp hrows)
    · next hne2 =>
      rw [hrows] at hne2
      simp at hne2
  · intro cid cnt hm hfnone
    have hmem := List.mem_map_of_mem (fun r => (companyLabel db r.1, r.2)) hm
    dsimp only at hmem
    have heq : companyLabel db cid = "Company " ++ toString cid := by
      unfold companyLabel
      rw [hfnone]
    rw [heq] at hmem
    unfold get_top_companies
    exact hmem
  · intro h1 h2
    unfold top_parts_rows
    rw [h1, h2]
    simp
  · intro hm1 hnn hmap
    have h1 : partsAggregate db limit (some (now - 7 * (weeks : Int))) = [] :=
      (partsAggregate_nil_iff db limit _ hlim).mpr hm1
    have hrows : top_parts_rows db limit weeks now = [] := by
      unfold get_top_parts at hmap
      exact List.map_eq_nil_iff.mp hmap
    unfold top_parts_rows at hrows
    rw [h1] at hrows
    simp only [List.isEmpty_nil, if_true] at hrows
    split at hrows
    · exact hnn ((partsAggregate_nil_iff db limit none hlim).mp hrows)
    · next hne2 =>
      rw [hrows] at hne2
      simp at hne2
  · intro pid cnt hm hfnone
    have hmem := List.mem_map_of_mem (fun r => (partLabel db r.1, r.2)) hm
    dsimp only at hmem
    have heq : partLabel db pid = "Part " ++ toString pid := by
      unfold partLabel
      rw [hfnone]
    rw [heq] at hmem
    unfold get_top_parts
    exact hmem

/-- Witness for C9: the only complaint of `dbAnalytics` is far older than
the requested 12-week window, yet both top aggregations return a non-empty
result after widening. -/
theorem top_aggregation_widening_witness :
    get_top_companies dbAnalytics 6 12 1000 ≠ [] ∧
    get_top_parts dbAnalytics 20 12 1000 ≠ [] :=
  ⟨(top_aggregation_widening dbAnalytics 6 12 1000 (by decide)).2.1
      (by decide) (by decide),
   (top_aggregation_widening dbAnalytics 20 12 1000 (by decide)).2.2.2.2.1
      (by decide) (by decide)⟩


/-! ### Claim C1 -/

theorem shiftMap_self (oldPos newPos : Nat) :
    shiftMap oldPos newPos oldPos = newPos := by
  unfold shiftMap
  rw [if_pos rfl]

theorem shiftMap_bounds (oldPos newPos n N : Nat)
    (ho1 : 1 ≤ oldPos) (ho2 : oldPos ≤ N) (hn1 : 1 ≤ newPos) (hn2 : newPos ≤ N)
    (h1 : 1 ≤ n) (h2 : n ≤ N) :
    1 ≤ shiftMap oldPos newPos n ∧ shiftMap oldPos newPos n ≤ N := by
  unfold shiftMap
  split_ifs <;> omega

theorem shiftMap_inj (oldPos newPos n1 n2 : Nat)
    (h11 : 1 ≤ n1) (h21 : 1 ≤ n2) :
    shiftMap oldPos newPos n1 = shiftMap oldPos newPos n2 → n1 = n2 := by
  unfold shiftMap
  split_ifs <;> omega

theorem shiftMap_surj (oldPos newPos m N : Nat)
    (ho1 : 1 ≤ oldPos) (ho2 : oldPos ≤ N) (hn1 : 1 ≤ newPos) (hn2 : newPos ≤ N)
    (h1 : 1 ≤ m) (h2 : m ≤ N) :
    1 ≤ shiftMapInv oldPos newPos m ∧ shiftMapInv oldPos newPos m ≤ N ∧
    shiftMap oldPos newPos (shiftMapInv oldPos newPos m) = m := by
  unfold shiftMap shiftMapInv
  split_ifs <;> omega


theorem dense_map_shift (L : List Nat) (oldPos newPos : Nat)
    (hnd : L.Nodup) (hmem : ∀ n, n ∈ L ↔ 1 ≤ n ∧ n ≤ L.length)
    (ho : oldPos ∈ L) (hn1 : 1 ≤ newPos) (hn2 : newPos ≤ L.length) :
    (L.map (shiftMap oldPos newPos)).Nodup ∧
    ∀ n, n ∈ L.map (shiftMap oldPos newPos) ↔
      1 ≤ n ∧ n ≤ (L.map (shiftMap oldPos newPos)).length := by
  have ho1 : 1 ≤ oldPos := ((hmem oldPos).mp ho).1
  have ho2 : oldPos ≤ L.length := ((hmem oldPos).mp ho).2
  constructor
  · apply List.Nodup.map_on ?_ hnd
    intro x hx y hy hxy
    exact shiftMap_inj oldPos newPos x y ((hmem x).mp hx).1 ((hmem y).mp hy).1 hxy
  · intro n
    rw [List.length_map]
    constructor
    · intro hn
      obtain ⟨m, hm, rfl⟩ := List.mem_map.mp hn
      have hb := (hmem m).mp hm
      exact shiftMap_bounds oldPos newPos m L.length ho1 ho2 hn1 hn2 hb.1 hb.2
    · intro hb
      have hs := shiftMap_surj oldPos newPos n L.length ho1 ho2 hn1 hn2 hb.1 hb.2
      refine List.mem_map.mpr ⟨shiftMapInv oldPos newPos n, ?_, hs.2.2⟩
      exact (hmem _).mpr ⟨hs.1, hs.2.1⟩

theorem shiftNumber_fields (oldPos newPos : Nat) (x : FollowUpAction) :
    (shiftNumber oldPos newPos x).id = x.id ∧
    (shiftNumber oldPos newPos x).complaintId = x.complaintId := by
  unfold shiftNumber
  split_ifs <;> exact ⟨rfl, rfl⟩

theorem shiftNumber_number (oldPos newPos : Nat) (x : FollowUpAction)
    (hne : x.actionNumber ≠ oldPos) :
    (shiftNumber oldPos newPos x).actionNumber
      = shiftMap oldPos newPos x.actionNumber := by
  unfold shiftNumber shiftMap
  split_ifs <;> dsimp only <;> omega

theorem reorder_numbers_map (db : DB) (cid aid : Nat) (a : FollowUpAction)
    (newPos : Nat)
    (hfind : findAction db cid aid = some a)
    (hids : actionIdsNodup db)
    (hnd : (complaintNumbers db cid).Nodup) :
    complaintNumbers { db with actions := db.actions.map (fun x =>
      if x.complaintId == cid then
        (if x.id == aid then { x with actionNumber := newPos }
         else shiftNumber a.actionNumber newPos x)
      else x) } cid
    = (complaintNumbers db cid).map (shiftMap a.actionNumber newPos) := by
  have hfind2 := hfind
  unfold findAction at hfind2
  have hpa0 := List.find?_some hfind2
  have hpa : (a.id == aid && a.complaintId == cid) = true := hpa0
  obtain ⟨hpaid, hpacid⟩ : a.id = aid ∧ a.complaintId = cid := by simpa using hpa
  have hamem : a ∈ db.actions := List.mem_of_find?_eq_some hfind2
  have hacm : a ∈ complaintActions db cid := by
    unfold complaintActions
    refine List.mem_filter.mpr ⟨hamem, ?_⟩
    show (a.complaintId == cid) = true
    simp [hpacid]
  have hnda : (db.actions.map (fun x => x.id)).Nodup := hids
  have hinj : ∀ x ∈ db.actions, ∀ y ∈ db.actions, x.id = y.id → x = y :=
    fun x hx y hy hxy => List.inj_on_of_nodup_map hnda hx hy hxy
  have hinjnum : ∀ x ∈ complaintActions db cid, ∀ y ∈ complaintActions db cid,
      x.actionNumber = y.actionNumber → x = y :=
    fun x hx y hy hxy => List.inj_on_of_nodup_map hnd hx hy hxy
  have hFcid : ∀ x : FollowUpAction,
      ((fun x => if x.complaintId == cid then
          (if x.id == aid then { x with actionNumber := newPos }
           else shiftNumber a.actionNumber newPos x)
        else x) x).complaintId = x.complaintId := by
    intro x
    dsimp only
    split_ifs
    · rfl
    · exact (shiftNumber_fields _ _ _).2
    · rfl
  unfold complaintNumbers
  rw [actions_map_filter db _ hFcid cid]
  rw [List.map_map, List.map_map]
  apply List.map_congr_left
  intro x hx
  have hxmem : x ∈ db.actions := (List.mem_filter.mp hx).1
  have hxcid : x.complaintId = cid := by
    have h3 := (List.mem_filter.mp hx).2
    simpa using h3
  show ((fun x => if x.complaintId == cid then
      (if x.id == aid then { x with actionNumber := newPos }
       else shiftNumber a.actionNumber newPos x)
    else x) x).actionNumber = shiftMap a.actionNumber newPos x.actionNumber
  dsimp only
  rw [if_pos (by simp [hxcid])]
  by_cases hxa : x.id = aid
  · rw [if_pos (by simp [hxa])]
    have hxeqa : x = a := hinj x hxmem a hamem (by rw [hxa, hpaid])
    subst hxeqa
    show newPos = shiftMap x.actionNumber newPos x.actionNumber
    rw [shiftMap_self]
  · rw [if_neg (by simp [hxa])]
    apply shiftNumber_number
    intro hcontra
    have hxeqa : x = a := hinjnum x hx a hacm hcontra
    rw [hxeqa] at hxa
    exact hxa hpaid


theorem actionIds_map (db : DB) (g : FollowUpAction → FollowUpAction)
    (hg : ∀ x, (g x).id = x.id)
    (h : actionIdsNodup db) : actionIdsNodup { db with actions := db.actions.map g } := by
  show (List.map (fun y => y.id) (db.actions.map g)).Nodup
  rw [List.map_map]
  have hcomp : ((fun (y : FollowUpAction) => y.id) ∘ g) = (fun (y : FollowUpAction) => y.id) := by
    funext x
    show (g x).id = x.id
    exact hg x
  rw [hcomp]
  exact h

theorem reorderStep_preserves (db : DB) (cid : Nat) (op : Nat × Nat)
    (hids : actionIdsNodup db) (hd : DenseNumbering db cid) :
    actionIdsNodup (reorderStep db cid op) ∧ DenseNumbering (reorderStep db cid op) cid := by
  unfold reorderStep
  rcases hr : reorder_actions db cid op.1 op.2 "System" with e | r
  · exact ⟨hids, hd⟩
  · obtain ⟨db2, msg⟩ := r
    unfold reorder_actions at hr
    split at hr
    · exact absurd hr (by simp)
    · next hbound =>
      rcases hfa : findAction db cid op.1 with _ | a
      · rw [hfa] at hr
        exact absurd hr (by simp)
      · rw [hfa] at hr
        dsimp only at hr
        split at hr
        · exact absurd hr (by simp)
        · next hcount =>
          split at hr
          · next heq =>
            obtain ⟨rfl, rfl⟩ : db = db2 ∧ _ = msg := by
              have h9 := hr
              simp only [Except.ok.injEq, Prod.mk.injEq] at h9
              exact ⟨h9.1, h9.2⟩
            exact ⟨hids, hd⟩
          · next hne =>
            have hdb2 : db2 = create_action_history { db with actions := db.actions.map (fun x =>
                if x.complaintId == cid then
                  (if x.id == op.1 then { x with actionNumber := op.2 }
                   else shiftNumber a.actionNumber op.2 x)
                else x) } op.1 "action_number" (some (toString a.actionNumber))
                (some (toString op.2)) "System" (some "Action reordered") := by
              have h9 := hr
              simp only [Except.ok.injEq, Prod.mk.injEq] at h9
              exact h9.1.symm
            subst hdb2
            have hnum : complaintNumbers (create_action_history { db with actions := db.actions.map (fun x =>
                  if x.complaintId == cid then
                    (if x.id == op.1 then { x with actionNumber := op.2 }
                     else shiftNumber a.actionNumber op.2 x)
                  else x) } op.1 "action_number" (some (toString a.actionNumber))
                (some (toString op.2)) "System" (some "Action reordered")) cid
                = (complaintNumbers db cid).map (shiftMap a.actionNumber op.2) := by
              have hsame : ∀ (d : DB) f o n c rs, complaintNumbers
                  (create_action_history d op.1 f o n c rs) cid = complaintNumbers d cid :=
                fun _ _ _ _ _ _ => rfl
              rw [hsame]
              exact reorder_numbers_map db cid op.1 a op.2 hfa hids hd.1
            have hids2 := actionIds_map db (fun x =>
                if x.complaintId == cid then
                  (if x.id == op.1 then { x with actionNumber := op.2 }
                   else shiftNumber a.actionNumber op.2 x)
                else x) (by
                  intro x
                  dsimp only
                  split_ifs
                  · rfl
                  · exact (shiftNumber_fields _ _ _).1
                  · rfl) hids
            refine ⟨hids2, ?_⟩
            have hfa2 := hfa
            unfold findAction at hfa2
            have hpa0 := List.find?_some hfa2
            have hpa : (a.id == op.1 && a.complaintId == cid) = true := hpa0
            obtain ⟨hpaid, hpacid⟩ : a.id = op.1 ∧ a.complaintId = cid := by simpa using hpa
            have hamem : a ∈ db.actions := List.mem_of_find?_eq_some hfa2
            have honum : a.actionNumber ∈ complaintNumbers db cid := by
              unfold complaintNumbers
              apply List.mem_map_of_mem
              unfold complaintActions
              refine List.mem_filter.mpr ⟨hamem, ?_⟩
              show (a.complaintId == cid) = true
              simp [hpacid]
            have hn1 : 1 ≤ op.2 := by
              push_neg at hbound
              omega
            have hn2 : op.2 ≤ (complaintNumbers db cid).length := by
              have hlen : (complaintNumbers db cid).length = actionCount db cid := by
                unfold complaintNumbers actionCount
                rw [List.length_map]
              omega
            have hdense := dense_map_shift (complaintNumbers db cid) a.actionNumber op.2
              hd.1 hd.2 honum hn1 hn2
            constructor
            · rw [hnum]
              exact hdense.1
            · intro n
              rw [hnum]
              exact hdense.2 n

/-- Claim C1: starting from a complaint whose `action_number` values are
exactly `{1, ..., N}` (distinct action ids being the primary-key invariant),
any sequence of reorder requests — requests the endpoint rejects leave the
store untouched — preserves the dense numbering: the values remain exactly
`{1, ..., N}`, with no gaps and no duplicates, after every operation. -/
theorem reorder_preserves_dense_numbering (db : DB) (cid : Nat)
    (hids : actionIdsNodup db) (hd : DenseNumbering db cid)
    (ops : List (Nat × Nat)) :
    DenseNumbering (ops.foldl (fun d op => reorderStep d cid op) db) cid := by
  suffices h : actionIdsNodup (ops.foldl (fun d op => reorderStep d cid op) db) ∧
      DenseNumbering (ops.foldl (fun d op => reorderStep d cid op) db) cid from h.2
  induction ops generalizing db with
  | nil => exact ⟨hids, hd⟩
  | cons op t ih =>
    rw [List.foldl_cons]
    have hstep := reorderStep_preserves db cid op hids hd
    exact ih (reorderStep db cid op) hstep.1 hstep.2


/-- Witness for C1: on a ten-action complaint, the request sequence
"move action 1 to position 5, then move action 7 to position 2" leaves the
numbering dense. -/
theorem reorder_preserves_dense_numbering_witness :
    DenseNumbering (([(1, 5), (7, 2)] : List (Nat × Nat)).foldl
      (fun d op => reorderStep d 1 op) (dbWith 10)) 1 :=
  reorder_preserves_dense_numbering (dbWith 10) 1
    (by show ((dbWith 10).actions.map (fun a => a.id)).Nodup
        decide)
    ⟨by decide, by
      intro n
      have hlist : complaintNumbers (dbWith 10) 1 = [1, 2, 3, 4, 5, 6, 7, 8, 9, 10] := by
        decide
      rw [hlist]
      simp only [List.mem_cons, List.not_mem_nil, or_false, List.length_cons,
        List.length_nil]
      omega⟩
    [(1, 5), (7, 2)]

end ComplaintSystem
